import Mathlib

/-!
Verification development for the stockdash incremental fetch-and-merge core.

The repository contains two near-identical implementations of the pipeline:
the module-level functions in `src/download.py` and the methods of
`NSEClient` in `src/clients/nse_client.py`.  Both are embedded here.

Modelling conventions:
* calendar dates are integers (days); `timedelta(days=1)` is `+ 1`;
* a pandas `DataFrame` at the merge level is a `Frame`: a list of column
  names plus a list of rows, where a row carries its `DATE` and an opaque
  `tag` identifying the record's payload;
* network fetch functions and the lenient date parser `pd.to_datetime`
  are opaque collaborators of the code, so they enter the model as
  function parameters (oracles);
* the DuckDB `max(date)` lookup result (with its error handling already
  collapsed to "absent") is an `Option Int` parameter;
* fallible code returns `Except`; `src/download.py` propagates a failed
  CSV read, which the model renders as `Except.error`.
-/

namespace Stockdash

/-- The canonical column set produced by the fetch pipeline
(`src/download.py` lines 15-17 and the analogous lists in
`src/clients/nse_client.py`). -/
def canonicalCols : List String :=
  ["DATE", "OPEN", "HIGH", "LOW", "PREVCLOSE", "LTP", "CLOSE", "VWAP",
   "VOLUME", "VALUE", "NOOFTRADES", "SYMBOL", "SERIES"]

/-- A merge-level record: its parsed `DATE` plus an opaque payload tag
standing for the remaining cell values. -/
structure MRow where
  date : Int
  tag : Nat
deriving DecidableEq, Repr

/-- A merge-level `DataFrame`: column names plus rows. -/
structure Frame where
  cols : List String
  rows : List MRow
deriving DecidableEq, Repr

/-- Column union as performed by `pd.concat` over frames with differing
columns: first frame's columns, then new names in order of appearance. -/
def colsUnion (ls : List (List String)) : List String :=
  ls.foldl (fun acc cs => acc ++ cs.filter (fun c => !acc.contains c)) []

/-- `DataFrame.drop_duplicates(subset=[key], keep='last')`: a row survives
iff no later row has the same key; survivors keep their order. -/
def dedupKeepLastBy {α : Type} (f : α → Int) : List α → List α
  | [] => []
  | x :: xs =>
    if xs.any (fun y => f y == f x) then dedupKeepLastBy f xs
    else x :: dedupKeepLastBy f xs

/-- `DataFrame.sort_values(by=key, ascending=False)`.  The source applies
it only after deduplication, so keys are distinct and any comparison sort
is a faithful model. -/
def sortByKeyDesc {α : Type} (f : α → Int) (l : List α) : List α :=
  List.insertionSort (fun a b => f b ≤ f a) l

/-- `DataFrame.sort_values(by=key)` ascending, used by the chunked
fetcher after its final deduplication. -/
def sortByKeyAsc {α : Type} (f : α → Int) (l : List α) : List α :=
  List.insertionSort (fun a b => f a ≤ f b) l

/-- Minimum of a list of dates (`existing_df['DATE'].min()`); only ever
used on non-empty lists. -/
def minKey : List Int → Int
  | [] => 0
  | x :: xs => xs.foldl min x

/-- Maximum of a list of dates (`existing_df['DATE'].max()`); only ever
used on non-empty lists. -/
def maxKey : List Int → Int
  | [] => 0
  | x :: xs => xs.foldl max x

/-- `existing_df['DATE'].min()` for a frame. -/
def frameMin (f : Frame) : Int := minKey (f.rows.map MRow.date)

/-- `existing_df['DATE'].max()` for a frame. -/
def frameMax (f : Frame) : Int := maxKey (f.rows.map MRow.date)

/-- State of the per-symbol CSV file on disk: absent, unreadable (either
`pd.read_csv` or the `DATE` parse raises), or successfully loaded. -/
inductive FileState where
  | absent
  | malformed
  | present (f : Frame)
deriving DecidableEq, Repr

/-- The `existing_df` variable right after the load step: `None` unless a
file is present and readable (`NSEClient.download_stock_data` lines
259-269 treats a failed read as `None`). -/
def existingOf : FileState → Option Frame
  | .present f => some f
  | _ => none

/-- The sub-ranges passed to `fetch_with_primary_and_fallback`
(`src/download.py` lines 219-275, identical in
`NSEClient.download_stock_data` lines 305-361): a backfill range when
`from_date < min_date_in_file`, an extension past
`effective_max_existing = db_max_date or max_date_in_file`, and the
no-CSV branch continuing from the DB end date or fetching everything. -/
def planRanges (fromD toD : Int) (dbMax : Option Int) (existing? : Option Frame) :
    List (Int × Int) :=
  let planElse : List (Int × Int) :=
    match dbMax with
    | some m => if m + 1 ≤ toD then [(m + 1, toD)] else []
    | none => [(fromD, toD)]
  match existing? with
  | some ef =>
    if ef.rows.isEmpty then planElse
    else
      (if fromD < frameMin ef then [(fromD, frameMin ef - 1)] else []) ++
      (if toD > (dbMax.getD (frameMax ef)) then [(dbMax.getD (frameMax ef) + 1, toD)] else [])
  | none => planElse

/-- Rows of the persisted output: concatenate existing rows with the newly
fetched rows, `drop_duplicates(subset=['DATE'], keep='last')`, then
`sort_values(by='DATE', ascending=False)` (`src/download.py` 284-287). -/
def finalizeRows (base news : List MRow) : List MRow :=
  sortByKeyDesc MRow.date (dedupKeepLastBy MRow.date (base ++ news))

/-- The persisted frame: `pd.concat(all_data)` (union of columns) followed
by `finalizeRows` on the rows. -/
def finalize (existing? : Option Frame) (newFrames : List Frame) : Frame :=
  { cols := colsUnion ((existing?.elim [] (fun f => [f.cols])) ++ newFrames.map Frame.cols)
  , rows := finalizeRows (existing?.elim [] Frame.rows) ((newFrames.map Frame.rows).flatten) }

/-- Observable outcome of one `download_stock_data` invocation: the
sub-ranges fetched, the frame written to the CSV (if any), and the
returned frame. -/
structure RunResult where
  fetches : List (Int × Int)
  wrote : Option Frame
  result : Frame
deriving DecidableEq, Repr

/-- The gap-detect / fetch / merge / persist body shared verbatim by
`src/download.py` lines 219-308 and `NSEClient.download_stock_data`
lines 305-394: plan the missing ranges, fetch each, and either return the
existing frame untouched (when `new_data_list` stayed empty and a file was
loaded) or write and return the merged frame. -/
def runMerge (fromD toD : Int) (dbMax : Option Int) (existing? : Option Frame)
    (fetch : Int → Int → Frame) : RunResult :=
  let ranges := planRanges fromD toD dbMax existing?
  let newFrames := ranges.map (fun p => fetch p.1 p.2)
  if ranges.isEmpty && existing?.isSome then
    { fetches := ranges, wrote := none, result := existing?.getD ⟨[], []⟩ }
  else
    let combined := finalize existing? newFrames
    { fetches := ranges, wrote := some combined, result := combined }

/-- `download_stock_data` from `src/download.py`: no up-to-date
short-circuit, and the CSV read at lines 197-200 is unguarded, so a
malformed file propagates the exception (`Except.error`). -/
def downloadStockDataPy (fromD toD : Int) (dbMax : Option Int) (file : FileState)
    (fetch : Int → Int → Frame) : Except Unit RunResult :=
  match file with
  | .malformed => .error ()
  | .absent => .ok (runMerge fromD toD dbMax none fetch)
  | .present f => .ok (runMerge fromD toD dbMax (some f) fetch)

/-- `max_date_in_file` as computed for the early-skip check
(`NSEClient.download_stock_data` lines 272-277): the file's max date when
a non-empty frame was loaded. -/
def fileMaxDate (existing? : Option Frame) : Option Int :=
  match existing? with
  | some ef => if ef.rows.isEmpty then none else some (frameMax ef)
  | none => none

/-- `NSEClient.download_stock_data` (`src/clients/nse_client.py` lines
220-394): a failed CSV read degrades to `None` (lines 262-269); the
already-up-to-date short-circuit (lines 278-281) returns the existing
frame unchanged, or a completely empty `pd.DataFrame()` when nothing was
loaded; otherwise the shared merge body runs. -/
def downloadStockDataClient (today fromD toD : Int) (dbMax : Option Int)
    (file : FileState) (fetch : Int → Int → Frame) : RunResult :=
  let existing? := existingOf file
  if dbMax = some today ∨ fileMaxDate existing? = some today then
    { fetches := [], wrote := none, result := existing?.getD ⟨[], []⟩ }
  else
    runMerge fromD toD dbMax existing? fetch

/-! ### Column normalizer and numeric cleaning
(`_fetch_equity_history_nselib` helpers, `src/download.py` lines 19-38,
identical in `src/clients/nse_client.py` lines 77-96). -/

/-- A raw provider table: named columns with string cells. -/
structure RawTable where
  cols : List (String × List String)
deriving DecidableEq, Repr

/-- `_normalize_colname`: lowercase, then keep only alphanumerics. -/
def normalizeColname (s : String) : String :=
  String.mk ((s.toList.map Char.toLower).filter Char.isAlphanum)

/-- `df.empty`: true when the table has no columns or no rows. -/
def dfEmpty (t : RawTable) : Bool :=
  t.cols.isEmpty || t.cols.any (fun c => c.2.isEmpty)

/-- Candidate scan of `_resolve_first`: for each candidate in order, look
its normalized name up in the dict `{ _normalize_colname(c): c }` built
over the table's columns (a Python dict comprehension keeps the last
binding for a repeated key, hence the `reverse.find?`). -/
def resolveFirstAux (t : RawTable) : List String → Option (List String)
  | [] => none
  | cand :: rest =>
    match t.cols.reverse.find? (fun c => normalizeColname c.1 == normalizeColname cand) with
    | some c => some c.2
    | none => resolveFirstAux t rest

/-- `_resolve_first(df, candidates)`: `None` on an empty frame, else the
first candidate whose normalized name appears among the normalized column
names; returns that column's cells. -/
def resolveFirst (t : RawTable) (cands : List String) : Option (List String) :=
  if dfEmpty t then none else resolveFirstAux t cands

/-- `_clean_numeric` applied to one cell: the regex
`[^0-9+\-\.]+ -> ''` keeps exactly digits, signs and dots. -/
def cleanNumeric (s : String) : String :=
  String.mk (s.toList.filter (fun c => c.isDigit || c == '+' || c == '-' || c == '.'))

/-- Digit-string value, e.g. `digitsVal ['1','2'] = 12`. -/
def digitsVal (l : List Char) : Nat :=
  l.foldl (fun acc c => acc * 10 + (c.toNat - 48)) 0

/-- `pd.to_numeric(..., errors='coerce')` on a cleaned cell: an optional
sign, then digits with at most one decimal point and at least one digit;
anything else coerces to null. -/
def parseDecimal (s : String) : Option ℚ :=
  let signedRest : ℚ × List Char :=
    match s.toList with
    | '+' :: r => (1, r)
    | '-' :: r => (-1, r)
    | r => (1, r)
  let ip := signedRest.2.takeWhile (fun c => c ≠ '.')
  let rest2 := signedRest.2.dropWhile (fun c => c ≠ '.')
  let fp := match rest2 with
    | [] => []
    | _ :: t => t
  if ip.all Char.isDigit && fp.all Char.isDigit && !(ip.isEmpty && fp.isEmpty) then
    some (signedRest.1 * ((digitsVal ip : ℚ) + (digitsVal fp : ℚ) / (10 : ℚ) ^ fp.length))
  else none

/-- The scalar pipeline `pd.to_numeric(_clean_numeric(s), errors='coerce')`
applied to one cell. -/
def cleanParse (s : String) : Option ℚ := parseDecimal (cleanNumeric s)

/-- One canonical record as produced by the nselib chunk normalizer
(`src/download.py` lines 75-89). -/
structure NormRow where
  DATE : Int
  OPEN : Option ℚ
  HIGH : Option ℚ
  LOW : Option ℚ
  PREVCLOSE : Option ℚ
  LTP : Option ℚ
  CLOSE : Option ℚ
  VWAP : Option ℚ
  VOLUME : Option ℚ
  VALUE : Option ℚ
  NOOFTRADES : Option ℚ
  SYMBOL : String
  SERIES : String
deriving DecidableEq, Repr

/-- Candidate lists from `src/download.py` lines 54-71. -/
def dateCandidates : List String := ["Date", "DATE", "Timestamp", "TIMESTAMP"]

def openCandidates : List String := ["OpenPrice", "Open Price", "OPEN", "Open"]

def highCandidates : List String := ["HighPrice", "High Price", "HIGH", "High"]

def lowCandidates : List String := ["LowPrice", "Low Price", "LOW", "Low"]

def prevCloseCandidates : List String := ["PrevClose", "Previous Close", "PREV_CLOSE"]

def ltpCandidates : List String := ["LastPrice", "LTP", "LAST_PRICE"]

def closeCandidates : List String := ["ClosePrice", "Close Price", "CLOSE", "Close"]

def vwapCandidates : List String := ["AveragePrice", "VWAP", "Avg Price"]

def volumeCandidates : List String :=
  ["TotalTradedQuantity", "Total Traded Quantity", "TOTAL_TRD_QTY", "VOLUME", "Volume"]

def valueCandidates : List String := ["Turnover₹", "Turnover (₹ Cr)", "Turnover", "VALUE"]

def tradesCandidates : List String := ["No.ofTrades", "No. of Trades", "TRADES"]

def seriesCandidates : List String := ["Series", "SERIES"]

/-- Cell of a resolved numeric column at row `i`, cleaned and coerced; an
unresolved column is `pd.NA` for every row. -/
def numCell (col? : Option (List String)) (i : Nat) : Option ℚ :=
  match col? with
  | none => none
  | some cells => (cells.get? i).bind cleanParse

/-- Cell of the resolved `SERIES` column at row `i`, defaulting to the
configured series when unresolved. -/
def strCell (col? : Option (List String)) (dflt : String) (i : Nat) : String :=
  match col? with
  | none => dflt
  | some cells => (cells.get? i).getD dflt

/-- Normalization of one non-empty raw chunk with a resolvable date column
(`src/download.py` lines 59-91): resolve each canonical field, parse
dates with the lenient parser `pdate` (an oracle for `pd.to_datetime`
with `errors='coerce'`), and drop rows whose date failed to parse. -/
def normalizeNselibRaw (pdate : String → Option Int) (t : RawTable)
    (symbol series : String) : List NormRow :=
  match resolveFirst t dateCandidates with
  | none => []
  | some dateCells =>
    let openCol := resolveFirst t openCandidates
    let highCol := resolveFirst t highCandidates
    let lowCol := resolveFirst t lowCandidates
    let prevCol := resolveFirst t prevCloseCandidates
    let ltpCol := resolveFirst t ltpCandidates
    let closeCol := resolveFirst t closeCandidates
    let vwapCol := resolveFirst t vwapCandidates
    let volCol := resolveFirst t volumeCandidates
    let valCol := resolveFirst t valueCandidates
    let trdCol := resolveFirst t tradesCandidates
    let serCol := resolveFirst t seriesCandidates
    dateCells.enum.filterMap fun ic =>
      (pdate ic.2).map fun d =>
        { DATE := d
        , OPEN := numCell openCol ic.1
        , HIGH := numCell highCol ic.1
        , LOW := numCell lowCol ic.1
        , PREVCLOSE := numCell prevCol ic.1
        , LTP := numCell ltpCol ic.1
        , CLOSE := numCell closeCol ic.1
        , VWAP := numCell vwapCol ic.1
        , VOLUME := numCell volCol ic.1
        , VALUE := numCell valCol ic.1
        , NOOFTRADES := numCell trdCol ic.1
        , SYMBOL := symbol
        , SERIES := strCell serCol series ic.1 }

/-! ### Chunked range fetcher
(`_fetch_equity_history_nselib`, `src/download.py` lines 9-108 and
`src/clients/nse_client.py` lines 61-168). -/

/-- A pipeline-level frame: canonical columns plus normalized rows. -/
structure PFrame where
  cols : List String
  rows : List NormRow
deriving DecidableEq, Repr

/-- The empty canonical table returned on `from_date > to_date` and when
no chunk contributed data. -/
def emptyCanonical : PFrame := { cols := canonicalCols, rows := [] }

/-- Outcome of one `price_volume_data` call for one chunk: a raw table (or
`None`), a `TimeoutError` from the alarm, or any other exception. -/
inductive ChunkOutcome where
  | ok (raw : Option RawTable)
  | timeout
  | err

/-- State collected by the chunk loop: the sub-ranges attempted (in
order) and the normalized frames appended to `all_chunks`. -/
structure ChunkedState where
  attempted : List (Int × Int)
  chunks : List (List NormRow)
deriving Repr

/-- The chunk `while` loop (`src/download.py` lines 43-96): each pass
fetches `[start, min(start + chunk_days - 1, to_date)]`; a timeout or any
other exception is logged and skipped; the `finally` block always
advances `start = end + 1`.  The loop consumes at least one day per pass
when `chunkDays ≥ 1`, so `(toD + 1 - start).toNat` passes suffice; `fuel`
makes that termination argument explicit. -/
def chunkLoop (chunkDays : Nat) (oracle : Int → Int → ChunkOutcome)
    (pdate : String → Option Int) (symbol series : String) :
    Nat → Int → Int → ChunkedState
  | 0, _, _ => ⟨[], []⟩
  | fuel + 1, start, toD =>
    if start > toD then ⟨[], []⟩
    else
      let e := min (start + (chunkDays : Int) - 1) toD
      let rest := chunkLoop chunkDays oracle pdate symbol series fuel (e + 1) toD
      let contributed : Option (List NormRow) :=
        match oracle start e with
        | .timeout => none
        | .err => none
        | .ok none => none
        | .ok (some raw) =>
          if dfEmpty raw then none
          else
            match resolveFirst raw dateCandidates with
            | none => none
            | some _ => some (normalizeNselibRaw pdate raw symbol series)
      ⟨(start, e) :: rest.attempted, contributed.elim rest.chunks (· :: rest.chunks)⟩

/-- The chunk boundaries alone, for stating which sub-ranges the loop
visits. -/
def chunkRangesAux (chunkDays : Nat) : Nat → Int → Int → List (Int × Int)
  | 0, _, _ => []
  | fuel + 1, start, toD =>
    if start > toD then []
    else
      let e := min (start + (chunkDays : Int) - 1) toD
      (start, e) :: chunkRangesAux chunkDays fuel (e + 1) toD

/-- The consecutive chunks of `[fromD, toD]` of width at most
`chunkDays`, each end clamped to `toD`. -/
def chunkSplit (chunkDays : Nat) (fromD toD : Int) : List (Int × Int) :=
  chunkRangesAux chunkDays (toD + 1 - fromD).toNat fromD toD

/-- Result of `_fetch_equity_history_nselib`: the chunk sub-ranges
attempted and the returned frame. -/
structure NselibResult where
  attempted : List (Int × Int)
  frame : PFrame
deriving Repr

/-- `_fetch_equity_history_nselib`: empty canonical result for an inverted
range; otherwise run the chunk loop, and either return the empty canonical
table (no chunk contributed) or the deduplicated ascending concatenation
of all chunks (`src/download.py` lines 98-108). -/
def fetchEquityHistoryNselib (chunkDays : Nat) (oracle : Int → Int → ChunkOutcome)
    (pdate : String → Option Int) (symbol series : String) (fromD toD : Int) :
    NselibResult :=
  if fromD > toD then ⟨[], emptyCanonical⟩
  else
    let st := chunkLoop chunkDays oracle pdate symbol series (toD + 1 - fromD).toNat fromD toD
    if st.chunks.isEmpty then ⟨st.attempted, emptyCanonical⟩
    else
      ⟨st.attempted,
       { cols := canonicalCols
       , rows := sortByKeyAsc NormRow.DATE (dedupKeepLastBy NormRow.DATE st.chunks.flatten) }⟩

/-! ### Primary/fallback resolver
(`fetch_with_primary_and_fallback`, `src/download.py` lines 204-217 and
`src/clients/nse_client.py` lines 285-303). -/

/-- Outcome of the primary `jugaad_data.nse.stock_df` call: a raw table,
a `TimeoutError` from the alarm (client variant only), a `KeyError` with
the given message, or any other exception. -/
inductive PrimaryOutcome where
  | ok (raw : RawTable)
  | timeout
  | keyError (msg : String)
  | err (msg : String)

/-- Containment of `sub` as a contiguous sublist. -/
def containsSub (sub : List Char) : List Char → Bool
  | [] => sub.isEmpty
  | c :: rest => sub.isPrefixOf (c :: rest) || containsSub sub rest

/-- Python `sub in s` for strings. -/
def strContains (s sub : String) : Bool := containsSub sub.toList s.toList

/-- `fetch_with_primary_and_fallback` in `NSEClient.download_stock_data`:
on success, normalize the primary result (the jugaad normalizer
`_normalize_jugaad_stock_df` is the oracle `normJugaad`, untouched by the
claims); on timeout, fall back to the chunked nselib fetcher; on a
`KeyError` whose message contains `CH_`, return the empty canonical table
without falling back; on any other exception, fall back.  The returned
flag records whether the secondary source was invoked. -/
def fetchWithPrimaryAndFallbackClient (normJugaad : RawTable → PFrame)
    (chunkDays : Nat) (oracle : Int → Int → ChunkOutcome)
    (pdate : String → Option Int) (symbol series : String)
    (primary : PrimaryOutcome) (f t : Int) : PFrame × Bool :=
  match primary with
  | .ok raw => (normJugaad raw, false)
  | .timeout => ((fetchEquityHistoryNselib chunkDays oracle pdate symbol series f t).frame, true)
  | .keyError msg =>
    if strContains msg "CH_" then (emptyCanonical, false)
    else ((fetchEquityHistoryNselib chunkDays oracle pdate symbol series f t).frame, true)
  | .err _ => ((fetchEquityHistoryNselib chunkDays oracle pdate symbol series f t).frame, true)

/-- `fetch_with_primary_and_fallback` in `src/download.py`: no timeout
mechanism exists there, and a `TimeoutError`, were one raised, would be
caught by the generic `except Exception` branch (it is not a `KeyError`),
so it falls back; the chunk size of the nselib fallback is hard-coded to
60 there. -/
def fetchWithPrimaryAndFallbackPy (normJugaad : RawTable → PFrame)
    (oracle : Int → Int → ChunkOutcome) (pdate : String → Option Int)
    (symbol series : String) (primary : PrimaryOutcome) (f t : Int) : PFrame × Bool :=
  match primary with
  | .ok raw => (normJugaad raw, false)
  | .timeout => ((fetchEquityHistoryNselib 60 oracle pdate symbol series f t).frame, true)
  | .keyError msg =>
    if strContains msg "CH_" then (emptyCanonical, false)
    else ((fetchEquityHistoryNselib 60 oracle pdate symbol series f t).frame, true)
  | .err _ => ((fetchEquityHistoryNselib 60 oracle pdate symbol series f t).frame, true)

/-! ### Derived observations used in statements -/

/-- The rows loaded from the existing file (empty when nothing loaded). -/
def existRowsOf (file : FileState) : List MRow := (existingOf file).elim [] Frame.rows

/-- All rows produced by the fetches a run performs, in fetch order. -/
def newRowsOf (fromD toD : Int) (dbMax : Option Int) (file : FileState)
    (fetch : Int → Int → Frame) : List MRow :=
  (((planRanges fromD toD dbMax (existingOf file)).map
      (fun p => fetch p.1 p.2)).map Frame.rows).flatten

/-- What the claimed dedup invariant asks of the persisted rows, relative
to the existing rows `base` and the newly fetched rows `news`: one record
per date, descending date order, each surviving record is the last
occurrence of its date in concatenation order (existing first, new
appended), and for a date present in the new data the surviving record
comes from the new data. -/
def mergedOK (base news outRows : List MRow) : Prop :=
  (outRows.map MRow.date).Nodup ∧
  outRows.Pairwise (fun a b => b.date < a.date) ∧
  (∀ d, d ∈ (base ++ news).map MRow.date →
    ∃ x, (base ++ news).reverse.find? (fun y => y.date == d) = some x ∧
      outRows.filter (fun y => y.date == d) = [x]) ∧
  (∀ d, d ∈ news.map MRow.date →
    ∃ x, x ∈ news ∧ (base ++ news).reverse.find? (fun y => y.date == d) = some x ∧
      outRows.filter (fun y => y.date == d) = [x])

/-- A chunk outcome counting as "failed or returned nothing": a timeout,
another exception, a `None` response, or an empty raw table. -/
def failedOrEmpty : ChunkOutcome → Prop
  | .ok (some raw) => dfEmpty raw = true
  | _ => True

/-! ### Generic lemmas about the dedup/sort steps -/

lemma dedupKeepLastBy_cons_true {α : Type} (f : α → Int) (a : α) (rest : List α)
    (h : rest.any (fun y => f y == f a) = true) :
    dedupKeepLastBy f (a :: rest) = dedupKeepLastBy f rest := by
  simp [dedupKeepLastBy, h]

lemma dedupKeepLastBy_cons_false {α : Type} (f : α → Int) (a : α) (rest : List α)
    (h : rest.any (fun y => f y == f a) = false) :
    dedupKeepLastBy f (a :: rest) = a :: dedupKeepLastBy f rest := by
  simp [dedupKeepLastBy, h]

lemma mem_dedupKeepLastBy {α : Type} {f : α → Int} {l : List α} {x : α}
    (hx : x ∈ dedupKeepLastBy f l) : x ∈ l := by
  induction l with
  | nil => simp [dedupKeepLastBy] at hx
  | cons a rest ih =>
    cases h : rest.any (fun y => f y == f a) with
    | true =>
      rw [dedupKeepLastBy_cons_true f a rest h] at hx
      exact List.mem_cons_of_mem a (ih hx)
    | false =>
      rw [dedupKeepLastBy_cons_false f a rest h, List.mem_cons] at hx
      rcases hx with rfl | hx
      · exact List.mem_cons_self _ _
      · exact List.mem_cons_of_mem a (ih hx)

lemma dedupKeepLastBy_map_nodup {α : Type} (f : α → Int) (l : List α) :
    ((dedupKeepLastBy f l).map f).Nodup := by
  induction l with
  | nil => simp [dedupKeepLastBy]
  | cons a rest ih =>
    cases h : rest.any (fun y => f y == f a) with
    | true => simpa [dedupKeepLastBy_cons_true f a rest h] using ih
    | false =>
      have hno : ∀ y ∈ rest, f y ≠ f a := by
        intro y hy
        have := List.any_eq_false.mp h y hy
        simpa using this
      rw [dedupKeepLastBy_cons_false f a rest h]
      simp only [List.map_cons, List.nodup_cons]
      refine ⟨fun hmem => ?_, ih⟩
      rcases List.mem_map.mp hmem with ⟨y, hy, hfy⟩
      exact hno y (mem_dedupKeepLastBy hy) hfy

lemma filter_dedupKeepLastBy {α : Type} (f : α → Int) (l : List α) (d : Int) :
    (dedupKeepLastBy f l).filter (fun y => f y == d)
      = (l.reverse.find? (fun y => f y == d)).elim [] (fun x => [x]) := by
  induction l with
  | nil => simp [dedupKeepLastBy]
  | cons a rest ih =>
    rw [List.reverse_cons, List.find?_append]
    cases h : rest.any (fun y => f y == f a) with
    | true =>
      rcases List.any_eq_true.mp h with ⟨w, hw, hfw⟩
      rw [dedupKeepLastBy_cons_true f a rest h, ih]
      by_cases hd : f a = d
      · have : rest.reverse.find? (fun y => f y == d) ≠ none := by
          rw [Ne, List.find?_eq_none]
          push_neg
          refine ⟨w, List.mem_reverse.mpr hw, ?_⟩
          have : f w = f a := by simpa using hfw
          simp [this, hd]
        rcases Option.ne_none_iff_exists'.mp this with ⟨x, hx⟩
        simp [hx]
      · have hnil : List.find? (fun y => f y == d) [a] = none := by
          simp [List.find?_cons, beq_iff_eq, hd]
        cases hfind : rest.reverse.find? (fun y => f y == d) <;> simp [hnil, hfind]
    | false =>
      have hno : ∀ y ∈ rest, f y ≠ f a := by
        intro y hy
        have := List.any_eq_false.mp h y hy
        simpa using this
      rw [dedupKeepLastBy_cons_false f a rest h]
      by_cases hd : f a = d
      · have hnone : rest.reverse.find? (fun y => f y == d) = none := by
          rw [List.find?_eq_none]
          intro x hx
          have := hno x (List.mem_reverse.mp hx)
          simp [hd] at this ⊢
          exact this
        have hfilter : (dedupKeepLastBy f rest).filter (fun y => f y == d) = [] := by
          rw [ih, hnone]
          rfl
        simp [List.filter_cons, hd, hfilter, hnone, List.find?_cons]
      · have hself : (f a == d) = false := by simpa using hd
        cases hfind : rest.reverse.find? (fun y => f y == d) with
        | none => simp [List.filter_cons, hself, ih, hfind, List.find?_cons]
        | some x => simp [List.filter_cons, hself, ih, hfind]

lemma sortByKeyDesc_perm {α : Type} (f : α → Int) (l : List α) :
    (sortByKeyDesc f l).Perm l :=
  List.perm_insertionSort _ l

lemma sortByKeyDesc_sorted {α : Type} (f : α → Int) (l : List α) :
    (sortByKeyDesc f l).Sorted (fun a b => f b ≤ f a) := by
  haveI : IsTotal α (fun a b => f b ≤ f a) := ⟨fun a b => le_total (f b) (f a)⟩
  haveI : IsTrans α (fun a b => f b ≤ f a) := ⟨fun a b c h1 h2 => le_trans h2 h1⟩
  exact List.sorted_insertionSort _ l

lemma finalizeRows_filter_eq (base news : List MRow) (d : Int) (x : MRow)
    (hfind : (base ++ news).reverse.find? (fun y => y.date == d) = some x) :
    (finalizeRows base news).filter (fun y => y.date == d) = [x] := by
  have hperm : ((finalizeRows base news).filter (fun y => y.date == d)).Perm
      ((dedupKeepLastBy MRow.date (base ++ news)).filter (fun y => y.date == d)) :=
    (sortByKeyDesc_perm MRow.date _).filter _
  rw [filter_dedupKeepLastBy, hfind] at hperm
  exact List.perm_singleton.mp hperm

lemma finalizeRows_mergedOK (base news : List MRow) :
    mergedOK base news (finalizeRows base news) := by
  have hnodupD : ((dedupKeepLastBy MRow.date (base ++ news)).map MRow.date).Nodup :=
    dedupKeepLastBy_map_nodup _ _
  have hpermMap : ((finalizeRows base news).map MRow.date).Perm
      ((dedupKeepLastBy MRow.date (base ++ news)).map MRow.date) :=
    (sortByKeyDesc_perm MRow.date _).map _
  have hnodup : ((finalizeRows base news).map MRow.date).Nodup :=
    hpermMap.symm.nodup hnodupD
  refine ⟨hnodup, ?_, ?_, ?_⟩
  · have hsorted : (finalizeRows base news).Pairwise (fun a b => b.date ≤ a.date) :=
      sortByKeyDesc_sorted MRow.date _
    have hne : (finalizeRows base news).Pairwise (fun a b => a.date ≠ b.date) :=
      List.pairwise_map.mp hnodup
    exact (hsorted.and hne).imp (fun h => lt_of_le_of_ne h.1 (Ne.symm h.2))
  · intro d hd
    rcases List.mem_map.mp hd with ⟨y, hy, rfl⟩
    have : ((base ++ news).reverse.find? (fun z => z.date == y.date)).isSome = true := by
      rw [List.find?_isSome]
      exact ⟨y, List.mem_reverse.mpr hy, by simp⟩
    rcases Option.isSome_iff_exists.mp this with ⟨x, hx⟩
    exact ⟨x, hx, finalizeRows_filter_eq base news _ x hx⟩
  · intro d hd
    rcases List.mem_map.mp hd with ⟨y, hy, rfl⟩
    have hsplit : (base ++ news).reverse.find? (fun z => z.date == y.date)
        = (news.reverse.find? (fun z => z.date == y.date)).or
            (base.reverse.find? (fun z => z.date == y.date)) := by
      rw [List.reverse_append, List.find?_append]
    have : (news.reverse.find? (fun z => z.date == y.date)).isSome = true := by
      rw [List.find?_isSome]
      exact ⟨y, List.mem_reverse.mpr hy, by simp⟩
    rcases Option.isSome_iff_exists.mp this with ⟨x, hx⟩
    have hmem : x ∈ news := List.mem_reverse.mp (List.mem_of_find?_eq_some hx)
    have hfull : (base ++ news).reverse.find? (fun z => z.date == y.date) = some x := by
      rw [hsplit, hx]
      rfl
    exact ⟨x, hmem, hfull, finalizeRows_filter_eq base news _ x hfull⟩

/-! ### Lemmas about one merge run -/

lemma runMerge_fetches (fromD toD : Int) (dbMax : Option Int) (existing? : Option Frame)
    (fetch : Int → Int → Frame) :
    (runMerge fromD toD dbMax existing? fetch).fetches
      = planRanges fromD toD dbMax existing? := by
  by_cases hc : ((planRanges fromD toD dbMax existing?).isEmpty && existing?.isSome) = true
  · simp [runMerge, hc]
  · simp [runMerge, hc]

lemma runMerge_wrote_rows (fromD toD : Int) (dbMax : Option Int) (existing? : Option Frame)
    (fetch : Int → Int → Frame) (w : Frame)
    (hw : (runMerge fromD toD dbMax existing? fetch).wrote = some w) :
    w.rows = finalizeRows (existing?.elim [] Frame.rows)
      ((((planRanges fromD toD dbMax existing?).map
          (fun p => fetch p.1 p.2)).map Frame.rows).flatten) := by
  by_cases hc : ((planRanges fromD toD dbMax existing?).isEmpty && existing?.isSome) = true
  · simp [runMerge, hc] at hw
  · simp [runMerge, hc, finalize] at hw
    rw [← hw]
    simp [List.map_map]

lemma runMerge_no_fetch (fromD toD : Int) (dbMax : Option Int) (ef : Frame)
    (fetch : Int → Int → Frame)
    (h : (runMerge fromD toD dbMax (some ef) fetch).fetches = []) :
    runMerge fromD toD dbMax (some ef) fetch = ⟨[], none, ef⟩ := by
  rw [runMerge_fetches] at h
  simp [runMerge, h]

/-- Claim C2 (confirmed): every persisted output of `download_stock_data`
— in either variant — has at most one record per `DATE`; the record kept
for a date is the last occurrence in the order existing-rows-then-new-rows
(so a newly fetched record wins over an existing one for the same date);
and the persisted rows are sorted descending by date. -/
theorem C2_merge_dedup_new_wins (today fromD toD : Int) (dbMax : Option Int)
    (file : FileState) (fetch : Int → Int → Frame) :
    (∀ r w, downloadStockDataPy fromD toD dbMax file fetch = .ok r → r.wrote = some w →
        mergedOK (existRowsOf file) (newRowsOf fromD toD dbMax file fetch) w.rows)
  ∧ (∀ w, (downloadStockDataClient today fromD toD dbMax file fetch).wrote = some w →
        mergedOK (existRowsOf file) (newRowsOf fromD toD dbMax file fetch) w.rows) := by
  constructor
  · intro r w hr hw
    cases file with
    | malformed => simp [downloadStockDataPy] at hr
    | absent =>
      simp only [downloadStockDataPy, Except.ok.injEq] at hr
      rw [← hr] at hw
      rw [runMerge_wrote_rows _ _ _ _ _ _ hw]
      exact finalizeRows_mergedOK _ _
    | present f =>
      simp only [downloadStockDataPy, Except.ok.injEq] at hr
      rw [← hr] at hw
      rw [runMerge_wrote_rows _ _ _ _ _ _ hw]
      exact finalizeRows_mergedOK _ _
  · intro w hw
    by_cases hsc : dbMax = some today ∨ fileMaxDate (existingOf file) = some today
    · simp [downloadStockDataClient, hsc] at hw
    · simp only [downloadStockDataClient, if_neg hsc] at hw
      rw [runMerge_wrote_rows _ _ _ _ _ _ hw]
      exact finalizeRows_mergedOK _ _

/-- Witness for C2: a concrete run whose file holds dates 1 and 2 and
whose fetch returns dates 2 and 3; the persisted rows keep the fetched
record (tag 5) for the overlapping date 2 and are sorted descending. -/
theorem C2_witness :
    downloadStockDataPy 1 3 none (.present ⟨["DATE"], [⟨1, 0⟩, ⟨2, 1⟩]⟩)
        (fun _ _ => ⟨canonicalCols, [⟨2, 5⟩, ⟨3, 6⟩]⟩)
      = .ok ⟨[(3, 3)], some ⟨canonicalCols, [⟨3, 6⟩, ⟨2, 5⟩, ⟨1, 0⟩]⟩,
             ⟨canonicalCols, [⟨3, 6⟩, ⟨2, 5⟩, ⟨1, 0⟩]⟩⟩
  ∧ mergedOK (existRowsOf (.present ⟨["DATE"], [⟨1, 0⟩, ⟨2, 1⟩]⟩))
      (newRowsOf 1 3 none (.present ⟨["DATE"], [⟨1, 0⟩, ⟨2, 1⟩]⟩)
        (fun _ _ => ⟨canonicalCols, [⟨2, 5⟩, ⟨3, 6⟩]⟩))
      [⟨3, 6⟩, ⟨2, 5⟩, ⟨1, 0⟩] :=
  ⟨rfl,
   (C2_merge_dedup_new_wins 0 1 3 none (.present ⟨["DATE"], [⟨1, 0⟩, ⟨2, 1⟩]⟩)
      (fun _ _ => ⟨canonicalCols, [⟨2, 5⟩, ⟨3, 6⟩]⟩)).1
     ⟨[(3, 3)], some ⟨canonicalCols, [⟨3, 6⟩, ⟨2, 5⟩, ⟨1, 0⟩]⟩,
      ⟨canonicalCols, [⟨3, 6⟩, ⟨2, 5⟩, ⟨1, 0⟩]⟩⟩
     ⟨canonicalCols, [⟨3, 6⟩, ⟨2, 5⟩, ⟨1, 0⟩]⟩ rfl rfl⟩

/-- Claim C1, counterexample: in `NSEClient.download_stock_data` the
already-up-to-date short-circuit fires before gap planning, so with the
file covering `[-10, -5]`, `from = -20 < -10`, `dbMax = 0` present and
`to = 1 >` effective maximum `0`, a run on the day `today = 0` issues zero
fetches instead of the two fetches `[(-20, -11), (1, 1)]` the claim
demands. -/
theorem C1_counterexample :
    (downloadStockDataClient 0 (-20) 1 (some 0)
        (.present ⟨["DATE"], [⟨-10, 0⟩, ⟨-5, 1⟩]⟩) (fun _ _ => ⟨[], []⟩)).fetches = []
  ∧ ((-20 : Int) < frameMin ⟨["DATE"], [⟨-10, 0⟩, ⟨-5, 1⟩]⟩)
  ∧ ((some (0 : Int)).getD (frameMax ⟨["DATE"], [⟨-10, 0⟩, ⟨-5, 1⟩]⟩) < (1 : Int))
  ∧ ([] : List (Int × Int)) ≠ [(-20, -11), (1, 1)] := by
  refine ⟨rfl, by decide, by decide, by decide⟩

/-- Claim C1 (amended): provided the client's already-up-to-date
short-circuit does not fire (`dbMax ≠ today` and the file max date
`≠ today`), a request `[from, to]` with `from < fileMin` and
`to > effectiveMax` (the DB max when present, else the file max) issues
exactly the two fetches `[from, fileMin - 1]` and `[effectiveMax + 1, to]`
and no other; the module-level `download.download_stock_data` has no
short-circuit and needs no such proviso. -/
theorem C1_range_correctness (today fromD toD : Int) (dbMax : Option Int) (ef : Frame)
    (fetchP fetchC : Int → Int → Frame)
    (hne : ef.rows ≠ [])
    (hfrom : fromD < frameMin ef)
    (hto : dbMax.getD (frameMax ef) < toD)
    (hdb : dbMax ≠ some today)
    (hfile : frameMax ef ≠ today) :
    (∃ r, downloadStockDataPy fromD toD dbMax (.present ef) fetchP = .ok r ∧
        r.fetches = [(fromD, frameMin ef - 1), (dbMax.getD (frameMax ef) + 1, toD)])
  ∧ (downloadStockDataClient today fromD toD dbMax (.present ef) fetchC).fetches
      = [(fromD, frameMin ef - 1), (dbMax.getD (frameMax ef) + 1, toD)] := by
  have hplan : planRanges fromD toD dbMax (some ef)
      = [(fromD, frameMin ef - 1), (dbMax.getD (frameMax ef) + 1, toD)] := by
    simp [planRanges, List.isEmpty_eq_false.mpr hne, hfrom, hto]
  have hsc : ¬(dbMax = some today ∨ fileMaxDate (existingOf (.present ef)) = some today) := by
    rintro (h | h)
    · exact hdb h
    · simp only [existingOf, fileMaxDate, List.isEmpty_eq_false.mpr hne] at h
      rw [if_neg (by simp [List.isEmpty_eq_false.mpr hne])] at h
      exact hfile (Option.some_injective _ h)
  constructor
  · exact ⟨runMerge fromD toD dbMax (some ef) fetchP, rfl,
      by rw [runMerge_fetches, hplan]⟩
  · simp only [downloadStockDataClient, if_neg hsc]
    rw [show existingOf (FileState.present ef) = some ef from rfl, runMerge_fetches, hplan]

/-- Witness for C1: file dates `{10, 20}`, request `[5, 30]`, no DB
watermark, `today = 100`; both variants fetch exactly `[5, 9]` and
`[21, 30]`. -/
theorem C1_witness :
    ((⟨["DATE"], [⟨10, 0⟩, ⟨20, 1⟩]⟩ : Frame).rows ≠ []
      ∧ (5 : Int) < frameMin ⟨["DATE"], [⟨10, 0⟩, ⟨20, 1⟩]⟩
      ∧ (none : Option Int).getD (frameMax ⟨["DATE"], [⟨10, 0⟩, ⟨20, 1⟩]⟩) < (30 : Int)
      ∧ (none : Option Int) ≠ some 100
      ∧ frameMax ⟨["DATE"], [⟨10, 0⟩, ⟨20, 1⟩]⟩ ≠ 100)
  ∧ ((∃ r, downloadStockDataPy 5 30 none (.present ⟨["DATE"], [⟨10, 0⟩, ⟨20, 1⟩]⟩)
          (fun _ _ => ⟨[], []⟩) = .ok r ∧
        r.fetches = [(5, frameMin ⟨["DATE"], [⟨10, 0⟩, ⟨20, 1⟩]⟩ - 1),
          ((none : Option Int).getD (frameMax ⟨["DATE"], [⟨10, 0⟩, ⟨20, 1⟩]⟩) + 1, 30)])
      ∧ (downloadStockDataClient 100 5 30 none (.present ⟨["DATE"], [⟨10, 0⟩, ⟨20, 1⟩]⟩)
          (fun _ _ => ⟨[], []⟩)).fetches
        = [(5, frameMin ⟨["DATE"], [⟨10, 0⟩, ⟨20, 1⟩]⟩ - 1),
          ((none : Option Int).getD (frameMax ⟨["DATE"], [⟨10, 0⟩, ⟨20, 1⟩]⟩) + 1, 30)]) :=
  ⟨⟨by decide, by decide, by decide, by decide, by decide⟩,
   C1_range_correctness 100 5 30 none ⟨["DATE"], [⟨10, 0⟩, ⟨20, 1⟩]⟩
     (fun _ _ => ⟨[], []⟩) (fun _ _ => ⟨[], []⟩)
     (by decide) (by decide) (by decide) (by decide) (by decide)⟩

/-- Claim C3, counterexample: the module-level
`download.download_stock_data` has no already-up-to-date short-circuit.
With the file's max date 5 equal to the operation day (`today = 5`) and
`to = 10`, it still fetches `[(6, 10)]` instead of making no fetch call. -/
theorem C3_counterexample :
    downloadStockDataPy 5 10 none (.present ⟨["DATE"], [⟨5, 0⟩]⟩) (fun _ _ => ⟨[], []⟩)
      = .ok ⟨[(6, 10)], some ⟨["DATE"], [⟨5, 0⟩]⟩, ⟨["DATE"], [⟨5, 0⟩]⟩⟩
  ∧ frameMax ⟨["DATE"], [⟨5, 0⟩]⟩ = 5
  ∧ ([(6, 10)] : List (Int × Int)) ≠ [] :=
  ⟨rfl, by decide, by decide⟩

/-- Claim C3 (amended): in `NSEClient.download_stock_data`, whenever the
DB max date or the loaded file's max date equals today, no fetch occurs,
nothing is written, and the existing file data is returned unchanged (a
completely empty frame if none was loaded); the module-level
`download.download_stock_data` has no such short-circuit. -/
theorem C3_short_circuit (today fromD toD : Int) (dbMax : Option Int)
    (file : FileState) (fetch : Int → Int → Frame)
    (h : dbMax = some today ∨ fileMaxDate (existingOf file) = some today) :
    downloadStockDataClient today fromD toD dbMax file fetch
      = { fetches := [], wrote := none, result := (existingOf file).getD ⟨[], []⟩ } := by
  simp only [downloadStockDataClient, if_pos h]

/-- Witness for C3: DB watermark equal to today;  nothing is fetched and
the (absent) file data comes back as the bare empty frame. -/
theorem C3_witness :
    ((some (7 : Int) = some (7 : Int)) ∨ fileMaxDate (existingOf .absent) = some 7)
  ∧ downloadStockDataClient 7 0 9 (some 7) .absent (fun _ _ => ⟨[], []⟩)
      = { fetches := [], wrote := none, result := ⟨[], []⟩ } :=
  ⟨Or.inl rfl, C3_short_circuit 7 0 9 (some 7) .absent (fun _ _ => ⟨[], []⟩) (Or.inl rfl)⟩

/-- Claim C6, counterexample: the guard at `src/download.py` line 277
keys on "no fetch was attempted", not "no fetch produced new data".
Here the single planned fetch `(1, 5)` runs and returns a frame with zero
rows — no fetch produced new data and existing file data was present —
yet the file is rewritten (`wrote` is `some`). -/
theorem C6_counterexample :
    downloadStockDataPy 0 5 none (.present ⟨["DATE"], [⟨0, 0⟩]⟩)
        (fun _ _ => ⟨canonicalCols, []⟩)
      = .ok ⟨[(1, 5)], some ⟨canonicalCols, [⟨0, 0⟩]⟩, ⟨canonicalCols, [⟨0, 0⟩]⟩⟩
  ∧ (Frame.mk canonicalCols []).rows = []
  ∧ (some (Frame.mk canonicalCols [⟨0, 0⟩]) ≠ none) :=
  ⟨rfl, rfl, by decide⟩

/-- Claim C6 (amended): when no fetch call was performed at all (the
planned range list is empty) and existing file data was present, both
variants return the existing data unchanged and do not rewrite the
storage file.  (If a fetch runs but yields no rows, the file is
rewritten with the re-sorted merge of the existing data.) -/
theorem C6_no_fetch_no_write (today fromD toD : Int) (dbMax : Option Int) (ef : Frame)
    (fetchP fetchC : Int → Int → Frame) :
    (∀ r, downloadStockDataPy fromD toD dbMax (.present ef) fetchP = .ok r →
        r.fetches = [] → r.wrote = none ∧ r.result = ef)
  ∧ (∀ r, downloadStockDataClient today fromD toD dbMax (.present ef) fetchC = r →
        r.fetches = [] → r.wrote = none ∧ r.result = ef) := by
  constructor
  · intro r hr hf
    simp only [downloadStockDataPy, Except.ok.injEq] at hr
    rw [← hr] at hf ⊢
    rw [runMerge_no_fetch fromD toD dbMax ef fetchP hf]
    exact ⟨rfl, rfl⟩
  · intro r hr hf
    by_cases hsc : dbMax = some today ∨ fileMaxDate (existingOf (.present ef)) = some today
    · rw [← hr]
      simp only [downloadStockDataClient, if_pos hsc]
      exact ⟨trivial, rfl⟩
    · rw [← hr] at hf ⊢
      simp only [downloadStockDataClient, if_neg hsc] at hf ⊢
      rw [show existingOf (FileState.present ef) = some ef from rfl] at hf ⊢
      rw [runMerge_no_fetch fromD toD dbMax ef fetchC hf]
      exact ⟨rfl, rfl⟩

/-- Witness for C6: request already inside the stored range (`from = 10 ≥
fileMin`, `to = 15 ≤ dbMax = 20`): the plan is empty, nothing is written,
the stored frame comes back as-is, in both variants. -/
theorem C6_witness :
    downloadStockDataPy 10 15 (some 20) (.present ⟨["DATE"], [⟨10, 0⟩, ⟨12, 1⟩]⟩)
        (fun _ _ => ⟨[], []⟩)
      = .ok ⟨[], none, ⟨["DATE"], [⟨10, 0⟩, ⟨12, 1⟩]⟩⟩
  ∧ (⟨[], none, ⟨["DATE"], [⟨10, 0⟩, ⟨12, 1⟩]⟩⟩ : RunResult).wrote = none
  ∧ (⟨[], none, ⟨["DATE"], [⟨10, 0⟩, ⟨12, 1⟩]⟩⟩ : RunResult).result
      = ⟨["DATE"], [⟨10, 0⟩, ⟨12, 1⟩]⟩ :=
  ⟨rfl,
   ((C6_no_fetch_no_write 99 10 15 (some 20) ⟨["DATE"], [⟨10, 0⟩, ⟨12, 1⟩]⟩
       (fun _ _ => ⟨[], []⟩) (fun _ _ => ⟨[], []⟩)).1
     ⟨[], none, ⟨["DATE"], [⟨10, 0⟩, ⟨12, 1⟩]⟩⟩ rfl rfl).1,
   ((C6_no_fetch_no_write 99 10 15 (some 20) ⟨["DATE"], [⟨10, 0⟩, ⟨12, 1⟩]⟩
       (fun _ _ => ⟨[], []⟩) (fun _ _ => ⟨[], []⟩)).1
     ⟨[], none, ⟨["DATE"], [⟨10, 0⟩, ⟨12, 1⟩]⟩⟩ rfl rfl).2⟩

/-- Claim C7, counterexample: the module-level
`download.download_stock_data` reads the existing CSV without any
try/except (`src/download.py` lines 197-200), so a malformed file makes
the whole operation raise instead of proceeding. -/
theorem C7_counterexample :
    downloadStockDataPy 0 5 none .malformed (fun _ _ => ⟨[], []⟩) = .error () := rfl

/-- Claim C7 (amended): `NSEClient.download_stock_data` treats a present
but malformed file exactly like an absent one (the failed read is logged
and `existing_df` stays `None`); the module-level variant instead
propagates the read error. -/
theorem C7_malformed_as_absent (today fromD toD : Int) (dbMax : Option Int)
    (fetch : Int → Int → Frame) :
    downloadStockDataClient today fromD toD dbMax .malformed fetch
      = downloadStockDataClient today fromD toD dbMax .absent fetch := rfl

/-- Claim C10 (confirmed): when the short-circuit fires with no file data
loaded, the client returns the bare `pd.DataFrame()` — zero rows and zero
columns — not the canonical 13-column empty frame the fetch pipeline
produces everywhere else. -/
theorem C10_short_circuit_bare_frame (today fromD toD : Int) (fetch : Int → Int → Frame) :
    downloadStockDataClient today fromD toD (some today) .absent fetch
      = { fetches := [], wrote := none, result := ⟨[], []⟩ }
  ∧ (Frame.mk [] []).cols = []
  ∧ emptyCanonical.cols = canonicalCols
  ∧ canonicalCols ≠ [] := by
  refine ⟨?_, rfl, rfl, by decide⟩
  simp [downloadStockDataClient, existingOf]

/-! ### Lemmas about the chunk loop -/

lemma chunkLoop_attempted (chunkDays : Nat) (oracle : Int → Int → ChunkOutcome)
    (pdate : String → Option Int) (symbol series : String) :
    ∀ fuel (start toD : Int),
      (chunkLoop chunkDays oracle pdate symbol series fuel start toD).attempted
        = chunkRangesAux chunkDays fuel start toD := by
  intro fuel
  induction fuel with
  | zero => intro start toD; rfl
  | succ n ih =>
    intro start toD
    by_cases h : start > toD
    · simp [chunkLoop, chunkRangesAux, h]
    · simp [chunkLoop, chunkRangesAux, h, ih]

lemma chunkRangesAux_start_le (chunkDays : Nat) (hc : 1 ≤ chunkDays) :
    ∀ fuel (start toD : Int) (p : Int × Int),
      p ∈ chunkRangesAux chunkDays fuel start toD → start ≤ p.1 := by
  intro fuel
  induction fuel with
  | zero => intro start toD p hp; simp [chunkRangesAux] at hp
  | succ n ih =>
    intro start toD p hp
    by_cases h : start > toD
    · simp [chunkRangesAux, h] at hp
    · simp only [chunkRangesAux, if_neg h, List.mem_cons] at hp
      rcases hp with rfl | hp
      · exact le_refl _
      · have hstep : start ≤ min (start + (chunkDays : Int) - 1) toD + 1 := by
          have h1 : (1 : Int) ≤ (chunkDays : Int) := by exact_mod_cast hc
          have h2 : start ≤ start + (chunkDays : Int) - 1 := by omega
          have h3 : start ≤ toD := le_of_not_lt h
          omega
        exact le_trans hstep (ih _ _ _ hp)

lemma chunkRangesAux_pairwise (chunkDays : Nat) (hc : 1 ≤ chunkDays) :
    ∀ fuel (start toD : Int),
      (chunkRangesAux chunkDays fuel start toD).Pairwise (fun a b => a.1 < b.1) := by
  intro fuel
  induction fuel with
  | zero => intro start toD; simp [chunkRangesAux]
  | succ n ih =>
    intro start toD
    by_cases h : start > toD
    · simp [chunkRangesAux, h]
    · simp only [chunkRangesAux, if_neg h, List.pairwise_cons]
      refine ⟨fun q hq => ?_, ih _ _⟩
      have hge := chunkRangesAux_start_le chunkDays hc n _ _ q hq
      have h1 : (1 : Int) ≤ (chunkDays : Int) := by exact_mod_cast hc
      have h3 : start ≤ toD := le_of_not_lt h
      omega

lemma chunkLoop_chunks_nil (chunkDays : Nat) (oracle : Int → Int → ChunkOutcome)
    (pdate : String → Option Int) (symbol series : String) :
    ∀ fuel (start toD : Int),
      (∀ p ∈ chunkRangesAux chunkDays fuel start toD, failedOrEmpty (oracle p.1 p.2)) →
      (chunkLoop chunkDays oracle pdate symbol series fuel start toD).chunks = [] := by
  intro fuel
  induction fuel with
  | zero => intro start toD _; rfl
  | succ n ih =>
    intro start toD hall
    by_cases h : start > toD
    · simp [chunkLoop, h]
    · have hhead : failedOrEmpty
          (oracle start (min (start + (chunkDays : Int) - 1) toD)) :=
        hall (start, min (start + (chunkDays : Int) - 1) toD)
          (by simp [chunkRangesAux, if_neg h])
      have htail : ∀ p ∈ chunkRangesAux chunkDays n
          (min (start + (chunkDays : Int) - 1) toD + 1) toD,
          failedOrEmpty (oracle p.1 p.2) := by
        intro p hp
        refine hall p ?_
        simp only [chunkRangesAux, if_neg h, List.mem_cons]
        exact Or.inr hp
      have hrest := ih (min (start + (chunkDays : Int) - 1) toD + 1) toD htail
      simp only [chunkLoop, if_neg h]
      cases horacle : oracle start (min (start + (chunkDays : Int) - 1) toD) with
      | timeout => simpa [horacle] using hrest
      | err => simpa [horacle] using hrest
      | ok raw? =>
        cases raw? with
        | none => simpa [horacle] using hrest
        | some raw =>
          have hemp : dfEmpty raw = true := by
            rw [horacle] at hhead
            exact hhead
          simpa [horacle, hemp] using hrest

/-- Claim C5 (confirmed): the chunked fetcher visits exactly the
consecutive chunk sub-ranges of `[from, to]` — independent of which
chunks time out or raise, so a failed chunk is skipped and every
remaining chunk is still attempted; the chunk starts strictly increase,
so no chunk is retried; and when every chunk fails or returns nothing the
result is the empty table with the full canonical column set. -/
theorem C5_chunked_fetch (chunkDays : Nat) (oracle : Int → Int → ChunkOutcome)
    (pdate : String → Option Int) (symbol series : String) (fromD toD : Int)
    (hc : 1 ≤ chunkDays) :
    (fetchEquityHistoryNselib chunkDays oracle pdate symbol series fromD toD).attempted
        = chunkSplit chunkDays fromD toD
  ∧ (chunkSplit chunkDays fromD toD).Pairwise (fun a b => a.1 < b.1)
  ∧ ((∀ p ∈ chunkSplit chunkDays fromD toD, failedOrEmpty (oracle p.1 p.2)) →
      (fetchEquityHistoryNselib chunkDays oracle pdate symbol series fromD toD).frame
        = emptyCanonical) := by
  refine ⟨?_, chunkRangesAux_pairwise chunkDays hc _ _ _, ?_⟩
  · by_cases h : fromD > toD
    · have hfuel : (toD + 1 - fromD).toNat = 0 := by omega
      simp [fetchEquityHistoryNselib, chunkSplit, h, hfuel, chunkRangesAux]
    · cases hnil : (chunkLoop chunkDays oracle pdate symbol series
          (toD + 1 - fromD).toNat fromD toD).chunks.isEmpty
      · simp [fetchEquityHistoryNselib, chunkSplit, h, hnil, chunkLoop_attempted]
      · simp [fetchEquityHistoryNselib, chunkSplit, h, hnil, chunkLoop_attempted]
  · intro hall
    by_cases h : fromD > toD
    · simp [fetchEquityHistoryNselib, h]
    · have hnil := chunkLoop_chunks_nil chunkDays oracle pdate symbol series
        (toD + 1 - fromD).toNat fromD toD hall
      simp [fetchEquityHistoryNselib, h, hnil]

/-- Witness for C5: a 60-day chunking of `[0, 100]` with every chunk
timing out: both chunks `(0, 59)` and `(60, 100)` are attempted, in
strictly increasing order, and the result is the canonical empty table. -/
theorem C5_witness :
    (1 ≤ 60
      ∧ (∀ p ∈ chunkSplit 60 0 100,
          failedOrEmpty ((fun _ _ => ChunkOutcome.timeout) p.1 p.2)))
  ∧ ((fetchEquityHistoryNselib 60 (fun _ _ => .timeout) (fun _ => none) "TCS" "EQ" 0 100).attempted
        = chunkSplit 60 0 100
      ∧ (chunkSplit 60 0 100).Pairwise (fun a b => a.1 < b.1)
      ∧ ((∀ p ∈ chunkSplit 60 0 100,
            failedOrEmpty ((fun _ _ => ChunkOutcome.timeout) p.1 p.2)) →
          (fetchEquityHistoryNselib 60 (fun _ _ => .timeout) (fun _ => none) "TCS" "EQ" 0 100).frame
            = emptyCanonical)) :=
  ⟨⟨by decide, fun p _ => trivial⟩,
   C5_chunked_fetch 60 (fun _ _ => .timeout) (fun _ => none) "TCS" "EQ" 0 100 (by decide)⟩

/-- Claim C4 (confirmed): in both variants, when the primary source
raises a `KeyError` whose message contains `CH_`, the resolver returns
the empty canonical table and never invokes the secondary source —
whatever the jugaad normalizer, chunk oracle and date parser would do. -/
theorem C4_ch_keyerror_no_fallback (normJugaad : RawTable → PFrame) (chunkDays : Nat)
    (oracle : Int → Int → ChunkOutcome) (pdate : String → Option Int)
    (symbol series : String) (msg : String) (f t : Int)
    (h : strContains msg "CH_" = true) :
    fetchWithPrimaryAndFallbackClient normJugaad chunkDays oracle pdate symbol series
        (.keyError msg) f t = (emptyCanonical, false)
  ∧ fetchWithPrimaryAndFallbackPy normJugaad oracle pdate symbol series
        (.keyError msg) f t = (emptyCanonical, false) := by
  constructor
  · simp [fetchWithPrimaryAndFallbackClient, h]
  · simp [fetchWithPrimaryAndFallbackPy, h]

/-- Witness for C4: the message `'CH_SYMBOL'` (Python renders a `KeyError`
on key `CH_SYMBOL` this way) contains `CH_`, and both resolvers return
the canonical empty table without calling the secondary source. -/
theorem C4_witness :
    strContains "\x27CH_SYMBOL\x27" "CH_" = true
  ∧ (fetchWithPrimaryAndFallbackClient (fun _ => emptyCanonical) 60 (fun _ _ => .timeout)
        (fun _ => none) "TCS" "EQ" (.keyError "\x27CH_SYMBOL\x27") 0 9 = (emptyCanonical, false)
      ∧ fetchWithPrimaryAndFallbackPy (fun _ => emptyCanonical) (fun _ _ => .timeout)
        (fun _ => none) "TCS" "EQ" (.keyError "\x27CH_SYMBOL\x27") 0 9 = (emptyCanonical, false)) :=
  ⟨by decide,
   C4_ch_keyerror_no_fallback (fun _ => emptyCanonical) 60 (fun _ _ => .timeout)
     (fun _ => none) "TCS" "EQ" "\x27CH_SYMBOL\x27" 0 9 (by decide)⟩

/-! ### Lemmas about column resolution -/

lemma resolveFirstAux_isSome (t : RawTable) :
    ∀ cands : List String, (resolveFirstAux t cands).isSome = true ↔
      ∃ cand ∈ cands, ∃ c ∈ t.cols, normalizeColname c.1 = normalizeColname cand := by
  intro cands
  induction cands with
  | nil => simp [resolveFirstAux]
  | cons cand rest ih =>
    simp only [resolveFirstAux]
    cases hfind : t.cols.reverse.find?
        (fun c => normalizeColname c.1 == normalizeColname cand) with
    | some c =>
      simp only [Option.isSome_some, true_iff]
      have hmem : c ∈ t.cols := List.mem_reverse.mp (List.mem_of_find?_eq_some hfind)
      have heq : normalizeColname c.1 = normalizeColname cand := by
        have := List.find?_some hfind
        simpa using this
      exact ⟨cand, List.mem_cons_self _ _, c, hmem, heq⟩
    | none =>
      constructor
      · intro hs
        rcases ih.mp hs with ⟨cd, hcd, c, hc, he⟩
        exact ⟨cd, List.mem_cons_of_mem _ hcd, c, hc, he⟩
      · rintro ⟨cd, hcd, c, hc, he⟩
        rcases List.mem_cons.mp hcd with rfl | hcd
        · exfalso
          have := List.find?_eq_none.mp hfind c (List.mem_reverse.mpr hc)
          simp [he] at this
        · exact ih.mpr ⟨cd, hcd, c, hc, he⟩

lemma normalizeNselibRaw_mem_shape (pdate : String → Option Int) (t : RawTable)
    (symbol series : String) (r : NormRow)
    (hr : r ∈ normalizeNselibRaw pdate t symbol series) :
    ∃ i : Nat,
      r.OPEN = numCell (resolveFirst t openCandidates) i
      ∧ r.HIGH = numCell (resolveFirst t highCandidates) i
      ∧ r.LOW = numCell (resolveFirst t lowCandidates) i
      ∧ r.PREVCLOSE = numCell (resolveFirst t prevCloseCandidates) i
      ∧ r.LTP = numCell (resolveFirst t ltpCandidates) i
      ∧ r.CLOSE = numCell (resolveFirst t closeCandidates) i
      ∧ r.VWAP = numCell (resolveFirst t vwapCandidates) i
      ∧ r.VOLUME = numCell (resolveFirst t volumeCandidates) i
      ∧ r.VALUE = numCell (resolveFirst t valueCandidates) i
      ∧ r.NOOFTRADES = numCell (resolveFirst t tradesCandidates) i
      ∧ r.SERIES = strCell (resolveFirst t seriesCandidates) series i := by
  unfold normalizeNselibRaw at hr
  cases hdc : resolveFirst t dateCandidates with
  | none =>
    rw [hdc] at hr
    simp at hr
  | some dateCells =>
    rw [hdc] at hr
    simp only at hr
    rcases List.mem_filterMap.mp hr with ⟨ic, hic, hmap⟩
    rcases Option.map_eq_some'.mp hmap with ⟨d, hd, hrow⟩
    refine ⟨ic.1, ?_, ?_, ?_, ?_, ?_, ?_, ?_, ?_, ?_, ?_, ?_⟩ <;> rw [← hrow]

/-- Claim C8, counterexample: two parts of the claim fail on the code.
First, the matching example is wrong — normalization keeps the
alphanumerics of "Cr", so `"Turnover (₹ Cr)"` normalizes to
`"turnovercr"`, which does not match `"turnover"`; a raw table whose only
column is `"Turnover (₹ Cr)"` resolves to nothing against the single
candidate `"turnover"`.  Second, the all-null-on-no-match clause is not
true of every canonical field: an unresolved SERIES column yields the
configured default series (`"EQ"` here) in every row, not nulls
(`src/download.py` line 89), and an unresolved date column makes the
chunk contribute no rows at all (the `continue` at line 56) rather than
an all-null DATE column. -/
theorem C8_counterexample :
    normalizeColname "Turnover (₹ Cr)" = "turnovercr"
  ∧ normalizeColname "turnover" = "turnover"
  ∧ normalizeColname "Turnover (₹ Cr)" ≠ normalizeColname "turnover"
  ∧ resolveFirst ⟨[("Turnover (₹ Cr)", ["100"])]⟩ ["turnover"] = none
  ∧ (resolveFirst ⟨[("Date", ["d1"])]⟩ seriesCandidates = none
      ∧ (normalizeNselibRaw (fun _ => some 0) ⟨[("Date", ["d1"])]⟩ "TCS" "EQ").map
          NormRow.SERIES = ["EQ"])
  ∧ (resolveFirst ⟨[("OPEN", ["1"])]⟩ dateCandidates = none
      ∧ normalizeNselibRaw (fun _ => some 0) ⟨[("OPEN", ["1"])]⟩ "TCS" "EQ" = []) := by
  refine ⟨by decide, by decide, by decide, by decide, ⟨by decide, by decide⟩,
    ⟨by decide, by decide⟩⟩

/-- Claim C8 (amended): resolution tries the ordered candidate list and a
candidate matches a raw column exactly when their normalized names
(lowercased, non-alphanumerics dropped) coincide; the first matching
candidate wins; `"Turnover (₹ Cr)"` is resolved for the VALUE field via
its own exact variant in the candidate list (not via `"turnover"`, whose
normalized form differs); when no variant matches one of the ten numeric
fields (OPEN, HIGH, LOW, PREVCLOSE, LTP, CLOSE, VWAP, VOLUME, VALUE,
NOOFTRADES), that output column is still present with every cell null —
never an error and never a missing column; an unresolved SERIES instead
defaults to the configured series value, and an unresolved date column
causes the chunk to be skipped entirely (no output rows). -/
theorem C8_column_resolution :
    (∀ (t : RawTable) (cands : List String),
        (resolveFirst t cands).isSome = true ↔
          (dfEmpty t = false ∧
            ∃ cand ∈ cands, ∃ c ∈ t.cols, normalizeColname c.1 = normalizeColname cand))
  ∧ resolveFirst ⟨[("Turnover (₹ Cr)", ["100"])]⟩ valueCandidates = some ["100"]
  ∧ resolveFirst ⟨[("VALUE", ["1"]), ("Turnover", ["2"])]⟩ valueCandidates = some ["2"]
  ∧ (∀ (pdate : String → Option Int) (t : RawTable) (symbol series : String) (r : NormRow),
        r ∈ normalizeNselibRaw pdate t symbol series →
          ((resolveFirst t openCandidates = none → r.OPEN = none)
          ∧ (resolveFirst t highCandidates = none → r.HIGH = none)
          ∧ (resolveFirst t lowCandidates = none → r.LOW = none)
          ∧ (resolveFirst t prevCloseCandidates = none → r.PREVCLOSE = none)
          ∧ (resolveFirst t ltpCandidates = none → r.LTP = none)
          ∧ (resolveFirst t closeCandidates = none → r.CLOSE = none)
          ∧ (resolveFirst t vwapCandidates = none → r.VWAP = none)
          ∧ (resolveFirst t volumeCandidates = none → r.VOLUME = none)
          ∧ (resolveFirst t valueCandidates = none → r.VALUE = none)
          ∧ (resolveFirst t tradesCandidates = none → r.NOOFTRADES = none)
          ∧ (resolveFirst t seriesCandidates = none → r.SERIES = series)))
  ∧ (∀ (pdate : String → Option Int) (t : RawTable) (symbol series : String),
        resolveFirst t dateCandidates = none →
        normalizeNselibRaw pdate t symbol series = []) := by
  refine ⟨?_, by decide, by decide, ?_, ?_⟩
  · intro t cands
    by_cases he : dfEmpty t = true
    · simp [resolveFirst, he]
    · have he' : dfEmpty t = false := by simpa using he
      simp [resolveFirst, he', resolveFirstAux_isSome]
  · intro pdate t symbol series r hr
    rcases normalizeNselibRaw_mem_shape pdate t symbol series r hr with
      ⟨i, hOPEN, hHIGH, hLOW, hPREV, hLTP, hCLOSE, hVWAP, hVOL, hVAL, hTRD, hSER⟩
    refine ⟨fun h => ?_, fun h => ?_, fun h => ?_, fun h => ?_, fun h => ?_, fun h => ?_,
      fun h => ?_, fun h => ?_, fun h => ?_, fun h => ?_, fun h => ?_⟩
    · rw [hOPEN, h]; rfl
    · rw [hHIGH, h]; rfl
    · rw [hLOW, h]; rfl
    · rw [hPREV, h]; rfl
    · rw [hLTP, h]; rfl
    · rw [hCLOSE, h]; rfl
    · rw [hVWAP, h]; rfl
    · rw [hVOL, h]; rfl
    · rw [hVAL, h]; rfl
    · rw [hTRD, h]; rfl
    · rw [hSER, h]; rfl
  · intro pdate t symbol series h
    unfold normalizeNselibRaw
    rw [h]

/-- Witness for C8: `"Open Price"` resolves against the OPEN candidates;
a table with only a date column yields a row with null VALUE (and null
OPEN) but with SERIES equal to the configured default; and a table with
no date column yields no rows. -/
theorem C8_witness :
    (dfEmpty ⟨[("Open Price", ["10"])]⟩ = false
      ∧ (∃ cand ∈ openCandidates, ∃ c ∈ (RawTable.mk [("Open Price", ["10"])]).cols,
          normalizeColname c.1 = normalizeColname cand))
  ∧ (resolveFirst ⟨[("Open Price", ["10"])]⟩ openCandidates).isSome = true
  ∧ (({ DATE := 0, OPEN := none, HIGH := none, LOW := none, PREVCLOSE := none,
        LTP := none, CLOSE := none, VWAP := none, VOLUME := none, VALUE := none,
        NOOFTRADES := none, SYMBOL := "TCS", SERIES := "EQ" } : NormRow)
          ∈ normalizeNselibRaw (fun _ => some 0) ⟨[("Date", ["d1"])]⟩ "TCS" "EQ"
      ∧ resolveFirst ⟨[("Date", ["d1"])]⟩ valueCandidates = none
      ∧ ({ DATE := 0, OPEN := none, HIGH := none, LOW := none, PREVCLOSE := none,
           LTP := none, CLOSE := none, VWAP := none, VOLUME := none, VALUE := none,
           NOOFTRADES := none, SYMBOL := "TCS", SERIES := "EQ" } : NormRow).VALUE = none
      ∧ resolveFirst ⟨[("Date", ["d1"])]⟩ openCandidates = none
      ∧ ({ DATE := 0, OPEN := none, HIGH := none, LOW := none, PREVCLOSE := none,
           LTP := none, CLOSE := none, VWAP := none, VOLUME := none, VALUE := none,
           NOOFTRADES := none, SYMBOL := "TCS", SERIES := "EQ" } : NormRow).OPEN = none
      ∧ resolveFirst ⟨[("Date", ["d1"])]⟩ seriesCandidates = none
      ∧ ({ DATE := 0, OPEN := none, HIGH := none, LOW := none, PREVCLOSE := none,
           LTP := none, CLOSE := none, VWAP := none, VOLUME := none, VALUE := none,
           NOOFTRADES := none, SYMBOL := "TCS", SERIES := "EQ" } : NormRow).SERIES = "EQ")
  ∧ (resolveFirst ⟨[("OPEN", ["1"])]⟩ dateCandidates = none
      ∧ normalizeNselibRaw (fun _ => some 0) ⟨[("OPEN", ["1"])]⟩ "TCS" "EQ" = []) :=
  ⟨⟨by decide, by decide⟩,
   (C8_column_resolution.1 ⟨[("Open Price", ["10"])]⟩ openCandidates).mpr
     ⟨by decide, by decide⟩,
   ⟨by decide, by decide,
    (C8_column_resolution.2.2.2.1 (fun _ => some 0) ⟨[("Date", ["d1"])]⟩ "TCS" "EQ"
        { DATE := 0, OPEN := none, HIGH := none, LOW := none, PREVCLOSE := none,
          LTP := none, CLOSE := none, VWAP := none, VOLUME := none, VALUE := none,
          NOOFTRADES := none, SYMBOL := "TCS", SERIES := "EQ" }
        (by decide)).2.2.2.2.2.2.2.2.1 (by decide),
    by decide,
    (C8_column_resolution.2.2.2.1 (fun _ => some 0) ⟨[("Date", ["d1"])]⟩ "TCS" "EQ"
        { DATE := 0, OPEN := none, HIGH := none, LOW := none, PREVCLOSE := none,
          LTP := none, CLOSE := none, VWAP := none, VOLUME := none, VALUE := none,
          NOOFTRADES := none, SYMBOL := "TCS", SERIES := "EQ" }
        (by decide)).1 (by decide),
    by decide,
    (C8_column_resolution.2.2.2.1 (fun _ => some 0) ⟨[("Date", ["d1"])]⟩ "TCS" "EQ"
        { DATE := 0, OPEN := none, HIGH := none, LOW := none, PREVCLOSE := none,
          LTP := none, CLOSE := none, VWAP := none, VOLUME := none, VALUE := none,
          NOOFTRADES := none, SYMBOL := "TCS", SERIES := "EQ" }
        (by decide)).2.2.2.2.2.2.2.2.2.2 (by decide)⟩,
   ⟨by decide,
    C8_column_resolution.2.2.2.2 (fun _ => some 0) ⟨[("OPEN", ["1"])]⟩ "TCS" "EQ" (by decide)⟩⟩

/-- Claim C9 (confirmed): numeric cleaning strips every character other
than digits, signs and the decimal point before parsing, and values that
still fail to parse coerce to null rather than raising: `"1,234.50"`
cleans and parses to `1234.50`, while `"—"` and the empty string parse to
null. -/
theorem C9_numeric_cleaning :
    (∀ s : String, ((cleanNumeric s).toList.all
        (fun c => c.isDigit || c == '+' || c == '-' || c == '.')) = true)
  ∧ cleanParse "1,234.50" = some ((2469 : ℚ) / 2)
  ∧ cleanParse "—" = none
  ∧ cleanParse "" = none := by
  refine ⟨?_, ?_, by decide, by decide⟩
  · intro s
    rw [show (cleanNumeric s).toList = s.toList.filter
        (fun c => c.isDigit || c == '+' || c == '-' || c == '.') from rfl]
    rw [List.all_eq_true]
    intro c hc
    exact (List.mem_filter.mp hc).2
  · have h : cleanParse "1,234.50"
        = some ((1 : ℚ) * ((digitsVal ['1', '2', '3', '4'] : ℚ)
            + (digitsVal ['5', '0'] : ℚ) / (10 : ℚ) ^ (2 : ℕ))) := rfl
    rw [h]
    norm_num [digitsVal, show '0'.toNat = 48 from rfl, show '1'.toNat = 49 from rfl,
      show '2'.toNat = 50 from rfl, show '3'.toNat = 51 from rfl,
      show '4'.toNat = 52 from rfl, show '5'.toNat = 53 from rfl]

end Stockdash
